import Mathlib

/-
Verification development for soundcloud_local (main.py).

The Python source is shallowly embedded: pure string/list manipulation is
translated to Lean functions on `List Char`, and effectful code (HTTP calls,
the filesystem) is made explicit by passing the external world's responses
as parameters (oracles) or as `Except` results, mirroring Python exceptions.
-/

namespace SCDL

/-- Double-quote character, written via its code point to keep the file plain. -/
def qc : Char := Char.ofNat 34

/-- Backslash character, written via its code point. -/
def backslashChar : Char := Char.ofNat 92

/-- Code points that Python's `str.strip()` / `re` `\s` treat as whitespace. -/
def pySpaceCodes : List Nat :=
  [9, 10, 11, 12, 13, 28, 29, 30, 31, 32, 133, 160, 5760,
   8192, 8193, 8194, 8195, 8196, 8197, 8198, 8199, 8200, 8201, 8202,
   8232, 8233, 8239, 8287, 12288]

/-- Python whitespace predicate (used by `strip` and by the regex class `\s`). -/
def isPySpace (c : Char) : Bool := pySpaceCodes.contains c.toNat

/-- Convert a string literal to the `List Char` representation used throughout. -/
def str (s : String) : List Char := s.toList

/-- Characters deleted by `clean_filename`'s character class
`[<>:"\|?*\x00-\x1F]` (the quote and backslash written via code points). -/
def badFileChar (c : Char) : Bool :=
  c == '<' || c == '>' || c == ':' || c == qc || c == backslashChar ||
  c == '|' || c == '?' || c == '*' || decide (c.toNat ≤ 31)

/-- Python `str.strip()`: drop leading and trailing whitespace. -/
def pyStrip (l : List Char) : List Char :=
  ((l.dropWhile isPySpace).reverse.dropWhile isPySpace).reverse

/-- The substitution `re.sub(r"\s+", " ", name)`: every maximal whitespace run
becomes a single space. -/
def collapseWs : List Char → List Char
  | [] => []
  | [c] => [if isPySpace c then ' ' else c]
  | c1 :: c2 :: rest =>
    if isPySpace c1 && isPySpace c2 then collapseWs (c2 :: rest)
    else (if isPySpace c1 then ' ' else c1) :: collapseWs (c2 :: rest)

/-- Embedding of `clean_filename` (main.py lines 46-51): strip, replace `/`
with `-`, delete the unsafe character class, collapse whitespace runs, strip
again, and fall back to `"audio"` when the result is empty. -/
def clean_filename (name : List Char) : List Char :=
  let n1 := (pyStrip name).map (fun c => if c == '/' then '-' else c)
  let n2 := n1.filter (fun c => !(badFileChar c))
  let n3 := pyStrip (collapseWs n2)
  if n3 = [] then str "audio" else n3

/-- Unicode control characters (category Cc): U+0000-U+001F and U+007F-U+009F. -/
def isUnicodeCc (c : Char) : Bool :=
  decide (c.toNat ≤ 31) || (decide (127 ≤ c.toNat) && decide (c.toNat ≤ 159))

/-- Decimal digits of a natural number, as printed by Python's f-string. -/
def natChars (n : Nat) : List Char := (Nat.repr n).toList

/-- Index of the last occurrence of a character, scanning like `str.rfind`. -/
def rfindIdx (c : Char) (l : List Char) : Option Nat :=
  match l.reverse.findIdx? (fun x => x == c) with
  | none => none
  | some i => some (l.length - 1 - i)

/-- Embedding of `os.path.splitext`: split at the last dot of the final path
component, provided some earlier character of that component is not a dot. -/
def splitextList (p : List Char) : List Char × List Char :=
  match rfindIdx '.' p with
  | none => (p, [])
  | some d =>
    let s := match rfindIdx '/' p with
             | none => 0
             | some i => i + 1
    if decide (s ≤ d) &&
        (List.range d).any (fun j => decide (s ≤ j) && !(p.getD j '.' == '.')) then
      (p.take d, p.drop d)
    else (p, [])

/-- One candidate name of the collision loop: `f"{base} ({counter}){ext}"`. -/
def collisionName (base ext : List Char) (counter : Nat) : List Char :=
  base ++ str " (" ++ natChars counter ++ str ")" ++ ext

/-- The `while os.path.exists(save_path)` loop of `download_track`
(main.py lines 305-309); the filesystem is modelled as the list `existing` of
paths that exist. `fuel` only bounds the recursion: with fuel
`existing.length + 1` the loop always exits before fuel runs out, because the
candidate names are pairwise distinct. -/
def collideLoop (existing : List (List Char)) (base ext : List Char) :
    Nat → Nat → List Char
  | counter, 0 => collisionName base ext counter
  | counter, fuel + 1 =>
    let cand := collisionName base ext counter
    if cand ∈ existing then collideLoop existing base ext (counter + 1) fuel
    else cand

/-- Destination-path collision resolution of `download_track`: keep the path
if it does not exist, otherwise append `" (2)"`, `" (3)"`, ... before the
extension until the name is free. -/
def resolvePath (existing : List (List Char)) (p : List Char) : List Char :=
  if p ∈ existing then
    let be := splitextList p
    collideLoop existing be.1 be.2 2 (existing.length + 1)
  else p

/-- Python exceptions that escape the embedded functions.
`soundCloudError` is the script's user-facing `SoundCloudError`;
`httpError` is a `requests.exceptions.HTTPError` re-raised untouched
(carrying the response status); `requestError` is any other
`requests.exceptions.RequestException`. -/
inductive PyErr where
  | soundCloudError (msg : String)
  | httpError (status : Nat)
  | requestError (msg : String)
deriving DecidableEq, Repr

/-- The error raised by `resolve_soundcloud_url` when the API yields no data
(the spec's `UnresolvableUrl`). -/
def unresolvableUrlErr : PyErr :=
  PyErr.soundCloudError "couldn't resolve that soundcloud url."

/-- The error raised by `api_request` on a 401/403 (the spec's
`CredentialRejected`). -/
def credentialRejectedErr : PyErr :=
  PyErr.soundCloudError "access denied - client id might be expired. try again."

/-- The error raised when the second scraped candidate fails validation
(the spec's `CredentialUnavailable`). -/
def credentialUnavailableErr : PyErr :=
  PyErr.soundCloudError "found client id but it doesn't work. try again in a minute."

/-- The error raised when a transcoding exchange succeeds without a URL field
(the spec's `MediaUrlMissing`). -/
def mediaUrlMissingErr : PyErr :=
  PyErr.soundCloudError "soundcloud didn't give us an mp3 url."

/-- The error raised for a playlist with no tracks (the spec's
`EmptyPlaylist`). -/
def emptyPlaylistErr : PyErr :=
  PyErr.soundCloudError "this playlist has no tracks."

/-- The error raised by `handle_download` for an unsupported entity kind. -/
def unsupportedTypeErr (kind : String) : PyErr :=
  PyErr.soundCloudError ("unsupported soundcloud type: " ++ kind)

/-- Classifier: is this error the spec's `UnresolvableUrl`? -/
def isUnresolvableUrl (e : PyErr) : Bool := e == unresolvableUrlErr

/-- Classifier: is this error the spec's `CredentialRejected`? -/
def isCredentialRejected (e : PyErr) : Bool := e == credentialRejectedErr

/-- Classifier: is this error the spec's generic `TransportError`
(a propagated HTTP error, a propagated request exception, or the
`"network error: ..."` wrapper raised by `api_request`)? -/
def isTransportError (e : PyErr) : Bool :=
  match e with
  | PyErr.httpError _ => true
  | PyErr.requestError _ => true
  | PyErr.soundCloudError m => List.isPrefixOf (str "network error: ") m.toList

/-- The JSON body of an API response; only its Python truthiness matters to
the embedded control flow (`if not data`). -/
structure JsonBody where
  truthy : Bool
deriving DecidableEq, Repr

/-- Outcome of one `session.get` call: either a network-level failure
(`requests.exceptions.RequestException` before any response exists) or a
response carrying an HTTP status and a JSON body. -/
inductive ApiResponse where
  | netFail (msg : String)
  | resp (status : Nat) (body : JsonBody)
deriving DecidableEq, Repr

/-- `requests`' `response.ok` / `raise_for_status`: a status raises exactly
when it lies in 400-599. -/
def responseOk (status : Nat) : Bool := !(decide (400 ≤ status) && decide (status < 600))

/-- Embedding of `api_request` (main.py lines 179-192), as a function of the
HTTP outcome `r`. A 404 with `allow404` returns `none` before
`raise_for_status`; a 401/403 becomes `credentialRejectedErr`; any other
4xx/5xx re-raises the bare `HTTPError`; a network failure becomes the
`"network error: ..."` `SoundCloudError`. -/
def api_request (allow404 : Bool) (r : ApiResponse) : Except PyErr (Option JsonBody) :=
  match r with
  | ApiResponse.netFail m => Except.error (PyErr.soundCloudError ("network error: " ++ m))
  | ApiResponse.resp st b =>
    if st == 404 && allow404 then Except.ok none
    else if decide (400 ≤ st) && decide (st < 600) then
      if st == 401 || st == 403 then Except.error credentialRejectedErr
      else Except.error (PyErr.httpError st)
    else Except.ok (some b)

/-- Embedding of `resolve_soundcloud_url` (main.py lines 195-202), as a
function of the HTTP outcome of the `/resolve` call. Note: `allow_404` is
NOT passed, so a 404 surfaces as a bare `HTTPError`, not as
`unresolvableUrlErr`. -/
def resolve_soundcloud_url (r : ApiResponse) : Except PyErr JsonBody :=
  match api_request false r with
  | Except.error e => Except.error e
  | Except.ok none => Except.error unresolvableUrlErr
  | Except.ok (some b) => if b.truthy then Except.ok b else Except.error unresolvableUrlErr

/-- Embedding of `check_client_id_valid` (main.py lines 149-158), as a
function of the HTTP outcome of the probe search call: `false` on any
exception, `false` on 401/403, otherwise `response.ok`. -/
def check_client_id_valid (r : ApiResponse) : Bool :=
  match r with
  | ApiResponse.netFail _ => false
  | ApiResponse.resp st _ => if st == 401 || st == 403 then false else responseOk st

/-- The scrape-validate-retry tail of `get_client_id` (main.py lines
166-176): scrape, validate, retry the scrape-and-validate cycle once, then
give up with `credentialUnavailableErr`. `scrape n` is the outcome of the
`n`-th `find_client_id` call (`Except.error` when the scrape itself raised),
`valid` the validation outcome per candidate. The second component counts
`find_client_id` invocations. The best-effort `save_client_id` and the
`time.sleep(0.5)` perform no observable computation and are omitted. -/
def scrapePhase (valid : String → Bool)
    (scrape : Nat → Except PyErr String) : Except PyErr String × Nat :=
  match scrape 0 with
  | Except.error e => (Except.error e, 1)
  | Except.ok id1 =>
    if valid id1 then (Except.ok id1, 1)
    else
      match scrape 1 with
      | Except.error e => (Except.error e, 2)
      | Except.ok id2 =>
        if valid id2 then (Except.ok id2, 2)
        else (Except.error credentialUnavailableErr, 2)

/-- Embedding of `get_client_id` (main.py lines 147-176): use the cached id
when the validator confirms it, otherwise run `scrapePhase`. The second
component counts `find_client_id` (scrape) invocations. -/
def get_client_id_traced (cached : Option String) (valid : String → Bool)
    (scrape : Nat → Except PyErr String) : Except PyErr String × Nat :=
  match cached with
  | some c => if valid c then (Except.ok c, 0) else scrapePhase valid scrape
  | none => scrapePhase valid scrape

/-- The value `get_client_id` returns (or the exception it raises). -/
def get_client_id (cached : Option String) (valid : String → Bool)
    (scrape : Nat → Except PyErr String) : Except PyErr String :=
  (get_client_id_traced cached valid scrape).1

/-- Does the needle occur at the start of the haystack? -/
def startsWithChars : List Char → List Char → Bool
  | [], _ => true
  | _ :: _, [] => false
  | a :: as, b :: bs => a == b && startsWithChars as bs

/-- Python's `in` on strings: does the needle occur contiguously anywhere in
the haystack? -/
def containsSub (needle : List Char) : List Char → Bool
  | [] => startsWithChars needle []
  | c :: cs => startsWithChars needle (c :: cs) || containsSub needle cs

/-- One transcoding descriptor of a track (`media.transcodings[i]`); absent
`format` fields are modelled as empty strings, matching the `or {}` /
`.get(..., "")` defaults in the source. -/
structure Transcoding where
  url : List Char
  mimeType : List Char
  protocol : List Char
deriving DecidableEq, Repr

/-- The eligibility test of `find_mp3_transcoding` (main.py line 213):
`"audio/mpeg" in mime_type and protocol == "progressive"`. -/
def eligibleTranscoding (t : Transcoding) : Bool :=
  containsSub (str "audio/mpeg") t.mimeType && t.protocol == str "progressive"

/-- Embedding of `find_mp3_transcoding` (main.py lines 205-215): the first
descriptor in list order passing `eligibleTranscoding`, else `none`. -/
def find_mp3_transcoding : List Transcoding → Option Transcoding
  | [] => none
  | t :: ts => if eligibleTranscoding t then some t else find_mp3_transcoding ts

/-- Track metadata as consumed by `get_track_download_info`: `title` and
`user.username` are `none` when the JSON key is missing (the code then falls
back to defaults), plus the list of transcoding descriptors. -/
structure TrackData where
  title : Option (List Char)
  username : Option (List Char)
  transcodings : List Transcoding
deriving DecidableEq, Repr

/-- Body of the transcoding-exchange response; only its optional `url` field
is consumed (`transcode_data.get("url")`). -/
structure ExchangeData where
  url : Option (List Char)
deriving DecidableEq, Repr

/-- The external HTTP world seen by the download path: `exchange u` is the
result of `api_request` on the final transcode URL `u`, and `download u p`
is the result of `download_file` streaming the media URL `u` to the path
`p` on disk. -/
structure Net where
  exchange : List Char → Except PyErr ExchangeData
  download : List Char → List Char → Except PyErr Unit

/-- What `get_track_download_info` returns for a downloadable track. -/
structure TrackInfo where
  url : List Char
  title : List Char
  artist : List Char
  filename : List Char
deriving DecidableEq, Repr

/-- Embedding of `get_track_download_info` (main.py lines 218-240):
`Except.ok none` means "no mp3 available" (a skip); an eligible descriptor
has the credential appended to its indirection URL (`&` when the URL already
has a query string, else `?`) and is exchanged for the final media URL;
a successful exchange without a `url` field raises `mediaUrlMissingErr`. -/
def get_track_download_info (net : Net) (clientId : List Char) (t : TrackData) :
    Except PyErr (Option TrackInfo) :=
  let title := t.title.getD (str "audio")
  let artist :=
    let u := pyStrip (t.username.getD [])
    if u = [] then str "Unknown Artist" else u
  match find_mp3_transcoding t.transcodings with
  | none => Except.ok none
  | some tc =>
    let sep := if tc.url.contains '?' then str "&" else str "?"
    let finalUrl := tc.url ++ sep ++ str "client_id=" ++ clientId
    match net.exchange finalUrl with
    | Except.error e => Except.error e
    | Except.ok d =>
      match d.url with
      | none => Except.error mediaUrlMissingErr
      | some mp3Url =>
        Except.ok (some
          { url := mp3Url, title := title, artist := artist,
            filename := clean_filename (artist ++ str " - " ++ title) ++ str ".mp3" })

/-- `os.path.join(output_dir, filename)`, in the simple shapes the script
uses (no absolute second component). -/
def joinPath (dir name : List Char) : List Char :=
  if dir = [] then name else dir ++ str "/" ++ name

/-- Embedding of `download_track` (main.py lines 293-314): ineligible tracks
(`Except.ok none` from `get_track_download_info`) return `false` (a logged
skip); otherwise the collision-resolved path is chosen and the media URL is
streamed; `true` reports a successful download. Exceptions propagate. -/
def download_track (net : Net) (clientId : List Char)
    (existing : List (List Char)) (outputDir : List Char) (t : TrackData) :
    Except PyErr Bool :=
  match get_track_download_info net clientId t with
  | Except.error e => Except.error e
  | Except.ok none => Except.ok false
  | Except.ok (some info) =>
    let savePath := resolvePath existing (joinPath outputDir info.filename)
    match net.download info.url savePath with
    | Except.error e => Except.error e
    | Except.ok _ => Except.ok true

/-- The playlist loop of `handle_download`: run `dl` on each track in order,
summing successes; an exception from `dl` propagates immediately, exactly as
the unguarded `download_track` call inside the `for` loop does. -/
def downloadAll (dl : TrackData → Except PyErr Bool) : List TrackData → Except PyErr Nat
  | [] => Except.ok 0
  | t :: ts =>
    match dl t with
    | Except.error e => Except.error e
    | Except.ok ok =>
      match downloadAll dl ts with
      | Except.error e => Except.error e
      | Except.ok n => Except.ok ((if ok then 1 else 0) + n)

/-- The resolved entity as consumed by `handle_download`: its `kind`, its
`tracks` list (`.get("tracks") or []`), and its own track fields (used when
`kind == "track"`). -/
structure ResolvedData where
  kind : String
  tracks : List TrackData
  selfTrack : TrackData

/-- Embedding of `handle_download` (main.py lines 317-343), parameterised by
the per-track download behaviour `dl` (the source calls `download_track`
there). Returns the final `(success_count, total_count)` report, or the
exception that aborted the run. -/
def handle_download (dl : TrackData → Except PyErr Bool) (rd : ResolvedData) :
    Except PyErr (Nat × Nat) :=
  if rd.kind == "track" then
    match dl rd.selfTrack with
    | Except.error e => Except.error e
    | Except.ok ok => Except.ok ((if ok then 1 else 0), 1)
  else if rd.kind == "playlist" || rd.kind == "system-playlist" then
    if rd.tracks = [] then Except.error emptyPlaylistErr
    else
      match downloadAll dl rd.tracks with
      | Except.error e => Except.error e
      | Except.ok n => Except.ok (n, rd.tracks.length)
  else Except.error (unsupportedTypeErr rd.kind)

/-- Success count predicted for a list of tracks under behaviour `dl`; used
to state what the aggregate report contains. -/
def okCount (dl : TrackData → Except PyErr Bool) : List TrackData → Nat
  | [] => 0
  | t :: ts => (match dl t with | Except.ok true => 1 | _ => 0) + okCount dl ts

/-- The regex character class `[0-9a-zA-Z]` of the client-id patterns. -/
def isAlnumAscii (c : Char) : Bool :=
  (decide ('0' ≤ c) && decide (c ≤ '9')) ||
  (decide ('a' ≤ c) && decide (c ≤ 'z')) ||
  (decide ('A' ≤ c) && decide (c ≤ 'Z'))

/-- The literal `client_id` shared by the patterns. -/
def clientIdLit : List Char := str "client_id"

/-- The literal `"client_id"` of the JSON-key pattern. -/
def jsonKeyLit : List Char := qc :: clientIdLit ++ [qc]

/-- Match one fixed character at the head of the input. -/
def matchChar (c : Char) : List Char → Option (List Char)
  | [] => none
  | x :: xs => if x == c then some xs else none

/-- Match a fixed literal at the head of the input. -/
def matchLit : List Char → List Char → Option (List Char)
  | [], s => some s
  | _ :: _, [] => none
  | l :: ls, x :: xs => if x == l then matchLit ls xs else none

/-- The regex `\s*`: greedily drop leading whitespace. -/
def skipSpaces : List Char → List Char
  | [] => []
  | c :: cs => if isPySpace c then skipSpaces cs else c :: cs

/-- The regex `[0-9a-zA-Z]{n}`: take exactly `n` alphanumeric characters,
returning them together with the rest of the input. -/
def takeAlnumExact : Nat → List Char → Option (List Char × List Char)
  | 0, s => some ([], s)
  | _ + 1, [] => none
  | n + 1, c :: cs =>
    if isAlnumAscii c then (takeAlnumExact n cs).map (fun p => (c :: p.1, p.2))
    else none

/-- The common tail of patterns 1-3: `\s*<sep>\s*"([0-9a-zA-Z]{32})"`,
matched at the start of the input; returns the captured group. -/
def matchSepQuoted (sep : Char) (s1 : List Char) : Option (List Char) :=
  (matchChar sep (skipSpaces s1)).bind fun s2 =>
    (matchChar qc (skipSpaces s2)).bind fun s3 =>
      (takeAlnumExact 32 s3).bind fun p =>
        (matchChar qc p.2).map fun _ => p.1

/-- Pattern 1, `client_id\s*:\s*"([0-9a-zA-Z]{32})"`, matched at the start of
the input; returns the captured group. -/
def matchP1At (s : List Char) : Option (List Char) :=
  (matchLit clientIdLit s).bind (matchSepQuoted ':')

/-- Pattern 2, `client_id\s*=\s*"([0-9a-zA-Z]{32})"`, matched at the start. -/
def matchP2At (s : List Char) : Option (List Char) :=
  (matchLit clientIdLit s).bind (matchSepQuoted '=')

/-- Pattern 3, `"client_id"\s*:\s*"([0-9a-zA-Z]{32})"`, matched at the start. -/
def matchP3At (s : List Char) : Option (List Char) :=
  (matchLit jsonKeyLit s).bind (matchSepQuoted ':')

/-- Pattern 4, `client_id=([0-9a-zA-Z]{32})`, matched at the start. -/
def matchP4At (s : List Char) : Option (List Char) :=
  (matchLit (clientIdLit ++ ['=']) s).bind fun s1 =>
    (takeAlnumExact 32 s1).map fun p => p.1

/-- `re.search`: try the pattern at every start position, left to right,
returning the first (leftmost) capture. -/
def searchWith (m : List Char → Option (List Char)) : List Char → Option (List Char)
  | [] => m []
  | c :: cs =>
    match m (c :: cs) with
    | some tok => some tok
    | none => searchWith m cs

/-- The ordered pattern set of `find_client_id` (main.py lines 116-127)
applied to one document: each compiled pattern is `search`ed over the whole
text in order, and the first pattern that matches anywhere wins. -/
def findTokenInText (s : List Char) : Option (List Char) :=
  match searchWith matchP1At s with
  | some tok => some tok
  | none =>
    match searchWith matchP2At s with
    | some tok => some tok
    | none =>
      match searchWith matchP3At s with
      | some tok => some tok
      | none => searchWith matchP4At s

/-- Synthetic fixture: the token embedded as a JS object property via
colon-assignment, `client_id:"<tok>"`. -/
def form1 (tok : List Char) : List Char := clientIdLit ++ ':' :: qc :: tok ++ [qc]

/-- Synthetic fixture: the token embedded via `=` assignment,
`client_id="<tok>"`. -/
def form2 (tok : List Char) : List Char := clientIdLit ++ '=' :: qc :: tok ++ [qc]

/-- Synthetic fixture: the token embedded as a JSON key,
`"client_id":"<tok>"`. -/
def form3 (tok : List Char) : List Char :=
  qc :: clientIdLit ++ qc :: ':' :: qc :: tok ++ [qc]

/-- Synthetic fixture: the token embedded as a bare URL query parameter,
`client_id=<tok>`. -/
def form4 (tok : List Char) : List Char := clientIdLit ++ '=' :: tok

/-- No two adjacent characters of the list are both whitespace: every
whitespace run has length at most one. -/
def noTwoSpaces (l : List Char) : Prop :=
  List.Chain' (fun a b => ¬(isPySpace a = true ∧ isPySpace b = true)) l

lemma mem_collapseWs (l : List Char) : ∀ c ∈ collapseWs l, c ∈ l ∨ c = ' ' := by
  induction l with
  | nil => simp [collapseWs]
  | cons c1 rest ih =>
    cases rest with
    | nil =>
      intro c hc
      by_cases h : isPySpace c1 = true <;> simp [collapseWs, h] at hc <;> simp [hc]
    | cons c2 rest2 =>
      intro c hc
      by_cases h : (isPySpace c1 && isPySpace c2) = true
      · rw [show collapseWs (c1 :: c2 :: rest2) = collapseWs (c2 :: rest2) by
          simp [collapseWs, h]] at hc
        rcases ih c hc with h1 | h1
        · exact Or.inl (List.mem_cons_of_mem _ h1)
        · exact Or.inr h1
      · rw [show collapseWs (c1 :: c2 :: rest2)
              = (if isPySpace c1 then ' ' else c1) :: collapseWs (c2 :: rest2) by
          simp [collapseWs, h]] at hc
        rcases List.mem_cons.mp hc with h1 | h1
        · by_cases hs : isPySpace c1 = true <;> simp [hs] at h1 <;> simp [h1]
        · rcases ih c h1 with h2 | h2
          · exact Or.inl (List.mem_cons_of_mem _ h2)
          · exact Or.inr h2

lemma space_collapseWs (l : List Char) :
    ∀ c ∈ collapseWs l, isPySpace c = true → c = ' ' := by
  induction l with
  | nil => simp [collapseWs]
  | cons c1 rest ih =>
    cases rest with
    | nil =>
      intro c hc hsp
      by_cases h : isPySpace c1 = true <;> simp [collapseWs, h] at hc
      · exact hc
      · subst hc; exact absurd hsp (by simp [h])
    | cons c2 rest2 =>
      intro c hc hsp
      by_cases h : (isPySpace c1 && isPySpace c2) = true
      · rw [show collapseWs (c1 :: c2 :: rest2) = collapseWs (c2 :: rest2) by
          simp [collapseWs, h]] at hc
        exact ih c hc hsp
      · rw [show collapseWs (c1 :: c2 :: rest2)
              = (if isPySpace c1 then ' ' else c1) :: collapseWs (c2 :: rest2) by
          simp [collapseWs, h]] at hc
        rcases List.mem_cons.mp hc with h1 | h1
        · by_cases hs : isPySpace c1 = true <;> simp [hs] at h1
          · exact h1
          · subst h1; exact absurd hsp (by simp [hs])
        · exact ih c h1 hsp

lemma collapseWs_cons_nonspace {c : Char} (l : List Char) (h : isPySpace c = false) :
    ∃ r, collapseWs (c :: l) = c :: r := by
  cases l with
  | nil => exact ⟨[], by simp [collapseWs, h]⟩
  | cons c2 r2 => exact ⟨collapseWs (c2 :: r2), by simp [collapseWs, h]⟩

lemma chain_collapseWs (l : List Char) : noTwoSpaces (collapseWs l) := by
  unfold noTwoSpaces
  induction l with
  | nil => simp [collapseWs]
  | cons c1 rest ih =>
    cases rest with
    | nil => simp [collapseWs]
    | cons c2 rest2 =>
      by_cases h : (isPySpace c1 && isPySpace c2) = true
      · rw [show collapseWs (c1 :: c2 :: rest2) = collapseWs (c2 :: rest2) by
          simp [collapseWs, h]]
        exact ih
      · rw [show collapseWs (c1 :: c2 :: rest2)
              = (if isPySpace c1 then ' ' else c1) :: collapseWs (c2 :: rest2) by
          simp [collapseWs, h]]
        refine List.chain'_cons'.mpr ⟨?_, ih⟩
        intro y hy
        by_cases h1 : isPySpace c1 = true
        · have h2 : isPySpace c2 = false := by
            revert h; cases hb : isPySpace c2 <;> simp [h1, hb]
          obtain ⟨r, hr⟩ := collapseWs_cons_nonspace rest2 h2
          rw [hr] at hy
          simp only [List.head?_cons, Option.mem_def, Option.some.injEq] at hy
          subst hy
          simp [h2]
        · simp [h1]

lemma pyStrip_segment (l : List Char) : pyStrip l <:+: l := by
  unfold pyStrip
  have h1 : l.dropWhile isPySpace <:+ l := List.dropWhile_suffix _
  have h2 : ((l.dropWhile isPySpace).reverse.dropWhile isPySpace).reverse
      <+: l.dropWhile isPySpace := by
    have h3 : (l.dropWhile isPySpace).reverse.dropWhile isPySpace
        <:+ (l.dropWhile isPySpace).reverse := List.dropWhile_suffix _
    have h4 := List.reverse_prefix.mpr h3
    simpa using h4
  exact h2.isInfix.trans h1.isInfix

lemma pyStrip_subset (l : List Char) : pyStrip l ⊆ l := (pyStrip_segment l).subset

lemma pyStrip_chain {R : Char → Char → Prop} {l : List Char}
    (h : List.Chain' R l) : List.Chain' R (pyStrip l) :=
  h.infix (pyStrip_segment l)

lemma noTwoSpaces_audio : noTwoSpaces (str "audio") := by
  unfold noTwoSpaces
  rw [show str "audio" = ['a', 'u', 'd', 'i', 'o'] from by decide]
  refine List.chain'_cons.mpr ⟨by decide, ?_⟩
  refine List.chain'_cons.mpr ⟨by decide, ?_⟩
  refine List.chain'_cons.mpr ⟨by decide, ?_⟩
  refine List.chain'_cons.mpr ⟨by decide, ?_⟩
  exact List.chain'_singleton _

/-- C8 (amended): for every input, `clean_filename` removes every occurrence
of the unsafe characters `< > : " \ | ? *` and of the C0 control characters
U+0000-U+001F, turns every whitespace character of the result into a plain
space with no two adjacent, and never returns an empty name (falling back to
`"audio"`). The original claim's "all control characters" fails for DEL, see
the counterexample. -/
theorem c8_clean_filename_amended (name : List Char) :
    (∀ c ∈ clean_filename name, badFileChar c = false) ∧
    (∀ c ∈ clean_filename name, isPySpace c = true → c = ' ') ∧
    noTwoSpaces (clean_filename name) ∧
    clean_filename name ≠ [] := by
  set n3 := pyStrip (collapseWs
    (((pyStrip name).map fun c => if c == '/' then '-' else c).filter
      fun c => !(badFileChar c))) with hn3
  have hcf : clean_filename name = if n3 = [] then str "audio" else n3 := rfl
  rw [hcf]
  by_cases hempty : n3 = []
  · rw [if_pos hempty]
    exact ⟨by decide, by decide, noTwoSpaces_audio, by decide⟩
  · rw [if_neg hempty]
    have hbad : ∀ c ∈ ((pyStrip name).map fun c => if c == '/' then '-' else c).filter
        (fun c => !(badFileChar c)), badFileChar c = false := by
      intro c hc
      have := (List.mem_filter.mp hc).2
      simpa using this
    refine ⟨?_, ?_, ?_, hempty⟩
    · intro c hc
      rcases mem_collapseWs _ c (pyStrip_subset _ (hn3 ▸ hc)) with h | rfl
      · exact hbad c h
      · decide
    · intro c hc
      exact space_collapseWs _ c (pyStrip_subset _ (hn3 ▸ hc))
    · exact hn3 ▸ pyStrip_chain (chain_collapseWs _)

/-- C8 witness: the amended theorem applied at a concrete name; the cleaned
form of `"  a<b>:  c  "` is `"ab c"`. -/
theorem c8_witness :
    badFileChar 'a' = false ∧
    noTwoSpaces (clean_filename (str "  a<b>:  c  ")) ∧
    clean_filename (str "  a<b>:  c  ") ≠ [] :=
  ⟨(c8_clean_filename_amended (str "  a<b>:  c  ")).1 'a' (by decide),
   (c8_clean_filename_amended (str "  a<b>:  c  ")).2.2.1,
   (c8_clean_filename_amended (str "  a<b>:  c  ")).2.2.2⟩

/-- C8 counterexample: DEL (U+007F) is a Unicode control character
(category Cc) but survives `clean_filename` untouched, because the source's
character class only covers U+0000-U+001F; so the claim's "removes all
control characters" is false as stated. -/
theorem c8_counterexample :
    clean_filename [Char.ofNat 127] = [Char.ofNat 127] ∧
    isUnicodeCc (Char.ofNat 127) = true := by
  decide

lemma transport_network_error (m : String) :
    isTransportError (PyErr.soundCloudError ("network error: " ++ m)) = true := by
  unfold isTransportError
  refine List.isPrefixOf_iff_prefix.mpr ?_
  show str "network error: " <+: ("network error: " ++ m).data
  rw [String.data_append]
  exact List.prefix_append _ _

/-- C2 (amended): the Resolver fails with `UnresolvableUrl` only when the API
responds successfully but with no (falsy) data; a 401/403 fails with
`CredentialRejected`; every other 4xx/5xx — including 404 — and every
network failure propagates as a generic transport error. The original
claim's "404 yields UnresolvableUrl" is false: `resolve_soundcloud_url`
never passes `allow_404`, so a 404 surfaces as the bare `HTTPError`. -/
theorem c2_resolver_errors_amended (st : Nat) (b : JsonBody) (m : String) :
    resolve_soundcloud_url (ApiResponse.netFail m)
      = Except.error (PyErr.soundCloudError ("network error: " ++ m)) ∧
    isTransportError (PyErr.soundCloudError ("network error: " ++ m)) = true ∧
    ((st = 401 ∨ st = 403) →
      resolve_soundcloud_url (ApiResponse.resp st b)
        = Except.error credentialRejectedErr) ∧
    (400 ≤ st → st < 600 → st ≠ 401 → st ≠ 403 →
      resolve_soundcloud_url (ApiResponse.resp st b)
          = Except.error (PyErr.httpError st) ∧
        isTransportError (PyErr.httpError st) = true) ∧
    (¬(400 ≤ st ∧ st < 600) → b.truthy = false →
      resolve_soundcloud_url (ApiResponse.resp st b)
        = Except.error unresolvableUrlErr) ∧
    (¬(400 ≤ st ∧ st < 600) → b.truthy = true →
      resolve_soundcloud_url (ApiResponse.resp st b) = Except.ok b) := by
  refine ⟨rfl, transport_network_error m, ?_, ?_, ?_, ?_⟩
  · rintro (rfl | rfl) <;> rfl
  · intro h1 h2 h3 h4
    refine ⟨?_, rfl⟩
    simp [resolve_soundcloud_url, api_request, h1, h2, h3, h4]
  · intro h ht
    simp [resolve_soundcloud_url, api_request, h, ht]
  · intro h ht
    simp [resolve_soundcloud_url, api_request, h, ht]

/-- C2 witness: the amended theorem applied at status 500 (a transport
error) and at a network failure. -/
theorem c2_witness :
    resolve_soundcloud_url (ApiResponse.resp 500 ⟨true⟩)
        = Except.error (PyErr.httpError 500) ∧
      isTransportError (PyErr.httpError 500) = true :=
  (c2_resolver_errors_amended 500 ⟨true⟩ "boom").2.2.2.1
    (by decide) (by decide) (by decide) (by decide)

/-- C2 counterexample: on a 404 the Resolver produces the re-raised
`HTTPError` (a generic transport error), not `UnresolvableUrl`, refuting the
claim's "HTTP 404 fails with UnresolvableUrl". -/
theorem c2_counterexample :
    resolve_soundcloud_url (ApiResponse.resp 404 ⟨true⟩)
        = Except.error (PyErr.httpError 404) ∧
      isUnresolvableUrl (PyErr.httpError 404) = false ∧
      isTransportError (PyErr.httpError 404) = true :=
  ⟨rfl, by decide, by decide⟩

/-- C3 (amended): the Validator returns false on 401/403, returns false
(it is a total function) on any network failure, and returns true exactly
when the probe status lies outside 400-599 — in particular on every 2xx,
but also on 1xx/3xx statuses such as 304. -/
theorem c3_validator_amended (st : Nat) (b : JsonBody) (m : String) :
    check_client_id_valid (ApiResponse.netFail m) = false ∧
    check_client_id_valid (ApiResponse.resp 401 b) = false ∧
    check_client_id_valid (ApiResponse.resp 403 b) = false ∧
    (200 ≤ st → st ≤ 299 → check_client_id_valid (ApiResponse.resp st b) = true) ∧
    (check_client_id_valid (ApiResponse.resp st b) = true ↔ ¬(400 ≤ st ∧ st < 600)) := by
  refine ⟨rfl, rfl, rfl, ?_, ?_⟩
  · intro h1 h2
    have e1 : st ≠ 401 := by omega
    have e2 : st ≠ 403 := by omega
    simp [check_client_id_valid, responseOk, e1, e2]
    omega
  · constructor
    · intro h
      simp only [check_client_id_valid] at h
      by_cases e1 : st = 401
      · subst e1; simp at h
      · by_cases e2 : st = 403
        · subst e2; simp at h
        · simp [e1, e2, responseOk] at h
          omega
    · intro h
      have e1 : st ≠ 401 := by omega
      have e2 : st ≠ 403 := by omega
      simp [check_client_id_valid, responseOk, e1, e2]
      omega

/-- C3 witness: the amended theorem applied at a 204 (2xx) probe response. -/
theorem c3_witness :
    check_client_id_valid (ApiResponse.resp 204 ⟨true⟩) = true :=
  (c3_validator_amended 204 ⟨true⟩ "boom").2.2.2.1 (by decide) (by decide)

/-- C3 counterexample: a 304 response is not 2xx, yet the Validator returns
true (it returns `response.ok`, which is status < 400), refuting "returns
true only when the response status is 2xx". -/
theorem c3_counterexample :
    check_client_id_valid (ApiResponse.resp 304 ⟨true⟩) = true ∧
    ¬(200 ≤ 304 ∧ 304 ≤ 299) := by
  decide

lemma scrapePhase_count_le (valid : String → Bool)
    (scrape : Nat → Except PyErr String) : (scrapePhase valid scrape).2 ≤ 2 := by
  unfold scrapePhase
  cases scrape 0 with
  | error e => simp
  | ok id1 =>
    by_cases h : valid id1 = true
    · simp [h]
    · cases h1 : scrape 1 with
      | error e => simp [h, h1]
      | ok id2 =>
        by_cases h2 : valid id2 = true <;> simp [h, h1, h2]

/-- C4: the Credential Manager performs at most 2 scrape attempts, and when
both scraped candidates fail validation it fails with
`CredentialUnavailable`. -/
theorem c4_scrape_budget (cached : Option String) (valid : String → Bool)
    (scrape : Nat → Except PyErr String) (id1 id2 : String) :
    (get_client_id_traced cached valid scrape).2 ≤ 2 ∧
    ((∀ c, cached = some c → valid c = false) →
      scrape 0 = Except.ok id1 → valid id1 = false →
      scrape 1 = Except.ok id2 → valid id2 = false →
      get_client_id_traced cached valid scrape
        = (Except.error credentialUnavailableErr, 2)) := by
  constructor
  · unfold get_client_id_traced
    cases cached with
    | none => exact scrapePhase_count_le valid scrape
    | some c =>
      by_cases h : valid c = true
      · simp [h]
      · simp [h]
        exact scrapePhase_count_le valid scrape
  · intro hc h0 hv1 h1 hv2
    have hphase : scrapePhase valid scrape = (Except.error credentialUnavailableErr, 2) := by
      unfold scrapePhase
      rw [h0, h1]
      simp [hv1, hv2]
    unfold get_client_id_traced
    cases cached with
    | none => exact hphase
    | some c => simp [hc c rfl, hphase]

/-- C4 witness: both scrapes return a candidate that fails validation; the
run performs 2 scrapes and fails with `CredentialUnavailable`. -/
theorem c4_witness :
    get_client_id_traced none (fun _ => false) (fun _ => Except.ok "cand")
        = (Except.error credentialUnavailableErr, 2) ∧
      (get_client_id_traced none (fun _ => false) (fun _ => Except.ok "cand")).2 ≤ 2 :=
  ⟨(c4_scrape_budget none (fun _ => false) (fun _ => Except.ok "cand") "cand" "cand").2
      (fun _ h => Option.noConfusion h) rfl rfl rfl rfl,
   (c4_scrape_budget none (fun _ => false) (fun _ => Except.ok "cand") "cand" "cand").1⟩

/-- C5: when a cached credential is present and the Validator confirms it,
`get_client_id` returns it with zero scrape invocations, for every possible
scraper behaviour. -/
theorem c5_cached_short_circuit (c : String) (valid : String → Bool)
    (scrape : Nat → Except PyErr String) (h : valid c = true) :
    get_client_id_traced (some c) valid scrape = (Except.ok c, 0) := by
  unfold get_client_id_traced
  simp [h]

/-- C5 witness: a concrete cached token that validates is returned with a
scrape count of zero, against a scraper that would fail if consulted. -/
theorem c5_witness :
    get_client_id_traced (some "tok") (fun _ => true)
      (fun _ => Except.error credentialUnavailableErr) = (Except.ok "tok", 0) :=
  c5_cached_short_circuit "tok" (fun _ => true)
    (fun _ => Except.error credentialUnavailableErr) rfl

lemma find_mp3_transcoding_eq_none {ts : List Transcoding}
    (h : ∀ t ∈ ts, eligibleTranscoding t = false) : find_mp3_transcoding ts = none := by
  induction ts with
  | nil => rfl
  | cons t rest ih =>
    unfold find_mp3_transcoding
    rw [h t (List.mem_cons_self t rest)]
    exact ih (fun x hx => h x (List.mem_cons_of_mem t hx))

lemma get_track_download_info_skip (net : Net) (cid : List Char) (t : TrackData)
    (h : ∀ d ∈ t.transcodings, eligibleTranscoding d = false) :
    get_track_download_info net cid t = Except.ok none := by
  unfold get_track_download_info
  rw [find_mp3_transcoding_eq_none h]

/-- C7: the Rendition Selector returns the first transcoding descriptor in
list order whose MIME type contains `audio/mpeg` and whose protocol is
`progressive`; when no descriptor is eligible it returns `none`, and
`get_track_download_info` then reports the track as a skip
(`Except.ok none`), not as an error. -/
theorem c7_rendition_selector (ts : List Transcoding) :
    ((∀ t ∈ ts, eligibleTranscoding t = false) → find_mp3_transcoding ts = none) ∧
    (∀ tc, find_mp3_transcoding ts = some tc →
      eligibleTranscoding tc = true ∧
      ∃ pre suf, ts = pre ++ tc :: suf ∧ ∀ t ∈ pre, eligibleTranscoding t = false) ∧
    (∀ net cid t, t.transcodings = ts → (∀ d ∈ ts, eligibleTranscoding d = false) →
      get_track_download_info net cid t = Except.ok none) := by
  refine ⟨fun h => find_mp3_transcoding_eq_none h, ?_, ?_⟩
  · induction ts with
    | nil => intro tc h; exact Option.noConfusion h
    | cons hd tl ih =>
      intro tc h
      by_cases he : eligibleTranscoding hd = true
      · rw [show find_mp3_transcoding (hd :: tl) = some hd by
            unfold find_mp3_transcoding; rw [he]; rfl] at h
        obtain rfl : hd = tc := Option.some.inj h
        exact ⟨he, [], tl, rfl, by simp⟩
      · rw [show find_mp3_transcoding (hd :: tl) = find_mp3_transcoding tl by
            simp only [find_mp3_transcoding]
            rw [Bool.of_not_eq_true he]
            simp] at h
        obtain ⟨htc, pre, suf, heq, hpre⟩ := ih tc h
        refine ⟨htc, hd :: pre, suf, by rw [heq]; rfl, ?_⟩
        intro x hx
        rcases List.mem_cons.mp hx with rfl | hx2
        · exact Bool.of_not_eq_true he
        · exact hpre x hx2
  · intro net cid t ht hall
    exact get_track_download_info_skip net cid t (fun d hd => hall d (ht ▸ hd))

/-- C7 witness: the theorem applied to a descriptor list holding only an
HLS/Opus-style (non-MP3, non-progressive) entry. -/
theorem c7_witness :
    find_mp3_transcoding [⟨str "u", str "application/x-mpegURL", str "hls"⟩] = none ∧
    get_track_download_info
        ⟨fun _ => Except.error mediaUrlMissingErr, fun _ _ => Except.ok ()⟩
        (str "cid") ⟨none, none, [⟨str "u", str "application/x-mpegURL", str "hls"⟩]⟩
      = Except.ok none :=
  ⟨(c7_rendition_selector [⟨str "u", str "application/x-mpegURL", str "hls"⟩]).1
      (by decide),
   (c7_rendition_selector [⟨str "u", str "application/x-mpegURL", str "hls"⟩]).2.2
      ⟨fun _ => Except.error mediaUrlMissingErr, fun _ _ => Except.ok ()⟩
      (str "cid") ⟨none, none, [⟨str "u", str "application/x-mpegURL", str "hls"⟩]⟩
      rfl (by decide)⟩

lemma downloadAll_ok (dl : TrackData → Except PyErr Bool) (ts : List TrackData)
    (h : ∀ t ∈ ts, ∃ b, dl t = Except.ok b) :
    downloadAll dl ts = Except.ok (okCount dl ts) := by
  induction ts with
  | nil => rfl
  | cons t rest ih =>
    obtain ⟨b, hb⟩ := h t (List.mem_cons_self t rest)
    unfold downloadAll okCount
    rw [hb, ih (fun x hx => h x (List.mem_cons_of_mem t hx))]
    cases b <;> simp

/-- C1 (amended): the playlist orchestration iterates tracks in order and a
track's ineligibility (no progressive MP3) yields a skip
(`download_track = ok false`) that never aborts the batch; whenever no
track raises an exception, every track is attempted and the run ends with
the aggregate `(successes, total)` report. (A per-track exception, by
contrast, aborts the batch — see the counterexample.) -/
theorem c1_batch_amended :
    (∀ net cid ex dir t, (∀ d ∈ t.transcodings, eligibleTranscoding d = false) →
      download_track net cid ex dir t = Except.ok false) ∧
    (∀ dl rd, (rd.kind = "playlist" ∨ rd.kind = "system-playlist") →
      rd.tracks ≠ [] → (∀ t ∈ rd.tracks, ∃ b, dl t = Except.ok b) →
      handle_download dl rd = Except.ok (okCount dl rd.tracks, rd.tracks.length)) := by
  constructor
  · intro net cid ex dir t h
    unfold download_track
    rw [get_track_download_info_skip net cid t h]
  · intro dl rd hkind hne hall
    have hda := downloadAll_ok dl rd.tracks hall
    unfold handle_download
    rcases hkind with hk | hk <;> rw [hk] <;> simp [hne, hda]

/-- C1 witness: the amended theorem applied to an ineligible track (skip,
no abort) and to a two-track playlist whose downloads both return, giving
the aggregate 2/2 report. -/
theorem c1_witness :
    download_track ⟨fun _ => Except.error mediaUrlMissingErr, fun _ _ => Except.ok ()⟩
        (str "cid") [] [] ⟨none, none, [⟨str "u", str "application/x-mpegURL", str "hls"⟩]⟩
      = Except.ok false ∧
    handle_download (fun _ => Except.ok true)
        ⟨"playlist", [⟨none, none, []⟩, ⟨some (str "t"), none, []⟩], ⟨none, none, []⟩⟩
      = Except.ok (2, 2) := by
  constructor
  · exact c1_batch_amended.1
      ⟨fun _ => Except.error mediaUrlMissingErr, fun _ _ => Except.ok ()⟩
      (str "cid") [] [] ⟨none, none, [⟨str "u", str "application/x-mpegURL", str "hls"⟩]⟩
      (by decide)
  · have := c1_batch_amended.2 (fun _ => Except.ok true)
      ⟨"playlist", [⟨none, none, []⟩, ⟨some (str "t"), none, []⟩], ⟨none, none, []⟩⟩
      (Or.inl rfl) (by simp) (fun t _ => ⟨true, rfl⟩)
    simpa [okCount] using this

/-- C1 counterexample: a concrete two-track playlist in which the first
track's transcoding exchange raises a network error; `handle_download`
propagates the exception and aborts the batch (no aggregate report), even
though the second track alone would download fine — refuting "a failure of
one track never aborts the batch". -/
theorem c1_counterexample :
    handle_download
        (download_track
          ⟨fun u => if u = str "u1?client_id=cid"
              then Except.error (PyErr.soundCloudError "network error: boom")
              else Except.ok ⟨some (str "m2")⟩,
            fun _ _ => Except.ok ()⟩
          (str "cid") [] [])
        ⟨"playlist",
          [⟨some (str "t1"), some (str "a1"),
              [⟨str "u1", str "audio/mpeg", str "progressive"⟩]⟩,
            ⟨some (str "t2"), some (str "a2"),
              [⟨str "u2", str "audio/mpeg", str "progressive"⟩]⟩],
          ⟨none, none, []⟩⟩
      = Except.error (PyErr.soundCloudError "network error: boom") ∧
    download_track
        ⟨fun u => if u = str "u1?client_id=cid"
            then Except.error (PyErr.soundCloudError "network error: boom")
            else Except.ok ⟨some (str "m2")⟩,
          fun _ _ => Except.ok ()⟩
        (str "cid") [] []
        ⟨some (str "t2"), some (str "a2"),
          [⟨str "u2", str "audio/mpeg", str "progressive"⟩]⟩
      = Except.ok true := by
  constructor <;> rfl

/-- C10: for every resolved entity whose kind is neither `track` nor
`playlist` nor `system-playlist`, `handle_download` fails with the
unsupported-type error; the result does not depend on the download
behaviour `dl`, so no download is attempted. -/
theorem c10_unsupported_kind (dl : TrackData → Except PyErr Bool)
    (rd : ResolvedData) (h1 : rd.kind ≠ "track") (h2 : rd.kind ≠ "playlist")
    (h3 : rd.kind ≠ "system-playlist") :
    handle_download dl rd = Except.error (unsupportedTypeErr rd.kind) := by
  unfold handle_download
  simp [h1, h2, h3]
lemma matchChar_self (c : Char) (r : List Char) : matchChar c (c :: r) = some r := by
  unfold matchChar
  simp

lemma matchChar_ne {c x : Char} (hx : (x == c) = false) (r : List Char) :
    matchChar c (x :: r) = none := by
  simp only [matchChar]
  rw [hx]
  simp

lemma matchChar_eq_cons {c : Char} {s r : List Char} (h : matchChar c s = some r) :
    s = c :: r := by
  cases s with
  | nil => exact Option.noConfusion h
  | cons x xs =>
    simp only [matchChar] at h
    by_cases hx : (x == c) = true
    · rw [if_pos hx] at h
      obtain rfl : x = c := by simpa using hx
      obtain rfl : xs = r := Option.some.inj h
      rfl
    · rw [if_neg hx] at h
      exact Option.noConfusion h

lemma matchLit_append (lit r : List Char) : matchLit lit (lit ++ r) = some r := by
  induction lit with
  | nil => rfl
  | cons l ls ih =>
    rw [List.cons_append]
    unfold matchLit
    simp [ih]

lemma matchLit_eq_append {lit s r : List Char} (h : matchLit lit s = some r) :
    s = lit ++ r := by
  induction lit generalizing s with
  | nil => simpa [matchLit] using h
  | cons l ls ih =>
    cases s with
    | nil => exact Option.noConfusion h
    | cons x xs =>
      simp only [matchLit] at h
      by_cases hx : (x == l) = true
      · rw [if_pos hx] at h
        obtain rfl : x = l := by simpa using hx
        rw [List.cons_append, ih h]
      · rw [if_neg hx] at h
        exact Option.noConfusion h

lemma matchLit_cons_ne {l x : Char} {ls s : List Char} (hx : (x == l) = false) :
    matchLit (l :: ls) (x :: s) = none := by
  simp only [matchLit]
  rw [hx]
  simp

lemma skipSpaces_space {c : Char} (h : isPySpace c = true) (s : List Char) :
    skipSpaces (c :: s) = skipSpaces s := by
  conv_lhs => unfold skipSpaces
  rw [h]
  simp

lemma skipSpaces_nonspace {c : Char} (h : isPySpace c = false) (s : List Char) :
    skipSpaces (c :: s) = c :: s := by
  conv_lhs => unfold skipSpaces
  rw [h]
  simp

lemma skipSpaces_suffix (s : List Char) : skipSpaces s <:+ s := by
  induction s with
  | nil => exact List.suffix_rfl
  | cons c cs ih =>
    by_cases h : isPySpace c = true
    · rw [skipSpaces_space h]
      exact ih.trans (List.suffix_cons c cs)
    · rw [skipSpaces_nonspace (Bool.of_not_eq_true h)]

lemma takeAlnumExact_append (tok r : List Char)
    (halnum : ∀ c ∈ tok, isAlnumAscii c = true) :
    takeAlnumExact tok.length (tok ++ r) = some (tok, r) := by
  induction tok with
  | nil => rfl
  | cons c cs ih =>
    have hc := halnum c (List.mem_cons_self c cs)
    rw [List.cons_append, List.length_cons]
    unfold takeAlnumExact
    simp [hc, ih (fun x hx => halnum x (List.mem_cons_of_mem c hx))]

lemma searchWith_head {m : List Char → Option (List Char)} {s tok : List Char}
    (h : m s = some tok) : searchWith m s = some tok := by
  cases s with
  | nil => exact h
  | cons c cs =>
    unfold searchWith
    rw [h]

lemma searchWith_eq_none {m : List Char → Option (List Char)} {s : List Char}
    (h : ∀ s2, s2 <:+ s → m s2 = none) : searchWith m s = none := by
  induction s with
  | nil => exact h [] List.suffix_rfl
  | cons c cs ih =>
    unfold searchWith
    rw [h (c :: cs) List.suffix_rfl]
    exact ih (fun s2 hs2 => h s2 (hs2.trans (List.suffix_cons c cs)))

lemma matchSepQuoted_mem_sep {sep : Char} {s1 tok : List Char}
    (h : matchSepQuoted sep s1 = some tok) : sep ∈ s1 := by
  unfold matchSepQuoted at h
  rcases Option.bind_eq_some.mp h with ⟨s2, hc, _⟩
  have hcons := matchChar_eq_cons hc
  exact (skipSpaces_suffix s1).subset (hcons ▸ List.mem_cons_self sep s2)

lemma matchSepQuoted_mem_quote {sep : Char} {s1 tok : List Char}
    (h : matchSepQuoted sep s1 = some tok) : qc ∈ s1 := by
  unfold matchSepQuoted at h
  rcases Option.bind_eq_some.mp h with ⟨s2, hc, h2⟩
  rcases Option.bind_eq_some.mp h2 with ⟨s3, hq, _⟩
  have hq2 : qc ∈ s2 :=
    (skipSpaces_suffix s2).subset (matchChar_eq_cons hq ▸ List.mem_cons_self qc s3)
  have hq1 : qc ∈ skipSpaces s1 :=
    matchChar_eq_cons hc ▸ List.mem_cons_of_mem sep hq2
  exact (skipSpaces_suffix s1).subset hq1

lemma matchP1At_mem {s tok : List Char} (h : matchP1At s = some tok) :
    '_' ∈ s ∧ ':' ∈ s := by
  unfold matchP1At at h
  rcases Option.bind_eq_some.mp h with ⟨s1, h1, h2⟩
  obtain rfl := matchLit_eq_append h1
  exact ⟨List.mem_append_left _ (by decide),
    List.mem_append_right _ (matchSepQuoted_mem_sep h2)⟩

lemma matchP2At_mem {s tok : List Char} (h : matchP2At s = some tok) :
    '=' ∈ s ∧ qc ∈ s := by
  unfold matchP2At at h
  rcases Option.bind_eq_some.mp h with ⟨s1, h1, h2⟩
  obtain rfl := matchLit_eq_append h1
  exact ⟨List.mem_append_right _ (matchSepQuoted_mem_sep h2),
    List.mem_append_right _ (matchSepQuoted_mem_quote h2)⟩

lemma matchP3At_mem {s tok : List Char} (h : matchP3At s = some tok) : qc ∈ s := by
  unfold matchP3At at h
  rcases Option.bind_eq_some.mp h with ⟨s1, h1, _⟩
  obtain rfl := matchLit_eq_append h1
  exact List.mem_append_left _ (by decide)

lemma matchP1At_none_of_no_underscore {s : List Char} (h : '_' ∉ s) :
    matchP1At s = none := by
  cases hm : matchP1At s with
  | none => rfl
  | some t => exact absurd (matchP1At_mem hm).1 h

lemma searchWith_none_char {m : List Char → Option (List Char)} (c : Char)
    (hreq : ∀ s t, m s = some t → c ∈ s) {doc : List Char} (hc : c ∉ doc) :
    searchWith m doc = none := by
  apply searchWith_eq_none
  intro s2 hs2
  cases hm : m s2 with
  | none => rfl
  | some t => exact absurd (hs2.subset (hreq s2 t hm)) hc

lemma suffix_append_cases {α : Type} {s a b : List α} (h : s <:+ a ++ b) :
    s <:+ b ∨ ∃ a2, a2 <:+ a ∧ a2 ≠ [] ∧ s = a2 ++ b := by
  induction a with
  | nil => exact Or.inl (by simpa using h)
  | cons x xs ih =>
    rw [List.cons_append] at h
    rcases List.suffix_cons_iff.mp h with rfl | h2
    · exact Or.inr ⟨x :: xs, List.suffix_rfl, by simp, rfl⟩
    · rcases ih h2 with h3 | ⟨a2, ha2, hne, rfl⟩
      · exact Or.inl h3
      · exact Or.inr ⟨a2, ha2.trans (List.suffix_cons x xs), hne, rfl⟩

lemma matchP1At_cons_ne {x : Char} (hx : (x == 'c') = false) (s : List Char) :
    matchP1At (x :: s) = none := by
  unfold matchP1At
  rw [show clientIdLit = 'c' :: str "lient_id" from by decide]
  rw [matchLit_cons_ne hx]
  rfl

lemma matchP1At_lit_quote (r : List Char) :
    matchP1At (clientIdLit ++ qc :: r) = none := by
  unfold matchP1At
  rw [matchLit_append]
  simp only [Option.some_bind]
  unfold matchSepQuoted
  rw [skipSpaces_nonspace (by decide : isPySpace qc = false)]
  rw [matchChar_ne (by decide : (qc == ':') = false)]
  rfl

lemma not_alnum_not_mem {x : Char} {tok : List Char}
    (halnum : ∀ c ∈ tok, isAlnumAscii c = true) (hx : isAlnumAscii x = false) :
    x ∉ tok := by
  intro h
  rw [halnum x h] at hx
  exact Bool.noConfusion hx

lemma p1_search_none_form3 {tok : List Char}
    (halnum : ∀ c ∈ tok, isAlnumAscii c = true) :
    searchWith matchP1At (form3 tok) = none := by
  apply searchWith_eq_none
  intro s hs
  have hform : form3 tok
      = [qc, 'c', 'l', 'i', 'e', 'n', 't', '_', 'i', 'd', qc, ':', qc] ++ (tok ++ [qc]) := by
    unfold form3
    rw [show clientIdLit = ['c', 'l', 'i', 'e', 'n', 't', '_', 'i', 'd'] from by decide]
    simp
  rw [hform] at hs
  have hnu : '_' ∉ tok ++ [qc] := by
    intro hmem
    rcases List.mem_append.mp hmem with h1 | h1
    · exact not_alnum_not_mem halnum (by decide) h1
    · rw [List.mem_singleton] at h1
      exact absurd h1 (by decide)
  rcases suffix_append_cases hs with h | ⟨a2, ha2, hne, rfl⟩
  · exact matchP1At_none_of_no_underscore (fun hm => hnu (h.subset hm))
  · have hmem := (List.mem_tails a2 _).mpr ha2
    simp only [List.tails, List.mem_cons, List.not_mem_nil, or_false] at hmem
    rcases hmem with rfl | rfl | rfl | rfl | rfl | rfl | rfl | rfl | rfl | rfl | rfl | rfl | rfl | rfl
    · exact matchP1At_cons_ne (by decide) _
    · rw [show ('c' :: ['l', 'i', 'e', 'n', 't', '_', 'i', 'd', qc, ':', qc] : List Char)
            ++ (tok ++ [qc]) = clientIdLit ++ qc :: (':' :: qc :: (tok ++ [qc])) from by
        rw [show clientIdLit = ['c', 'l', 'i', 'e', 'n', 't', '_', 'i', 'd'] from by decide]
        simp]
      exact matchP1At_lit_quote _
    · exact matchP1At_cons_ne (by decide) _
    · exact matchP1At_cons_ne (by decide) _
    · exact matchP1At_cons_ne (by decide) _
    · exact matchP1At_cons_ne (by decide) _
    · exact matchP1At_cons_ne (by decide) _
    · exact matchP1At_cons_ne (by decide) _
    · exact matchP1At_cons_ne (by decide) _
    · exact matchP1At_cons_ne (by decide) _
    · exact matchP1At_cons_ne (by decide) _
    · exact matchP1At_cons_ne (by decide) _
    · exact matchP1At_cons_ne (by decide) _
    · exact absurd rfl hne

lemma matchSepQuoted_run {sep : Char} (hsep : isPySpace sep = false)
    {tok : List Char} (hlen : tok.length = 32)
    (halnum : ∀ c ∈ tok, isAlnumAscii c = true) :
    matchSepQuoted sep (sep :: qc :: (tok ++ [qc])) = some tok := by
  unfold matchSepQuoted
  rw [skipSpaces_nonspace hsep]
  rw [matchChar_self]
  simp only [Option.some_bind]
  rw [skipSpaces_nonspace (by decide : isPySpace qc = false)]
  rw [matchChar_self]
  simp only [Option.some_bind]
  rw [← hlen, takeAlnumExact_append tok [qc] halnum]
  simp only [Option.some_bind]
  rw [matchChar_self]
  simp only [Option.map_some']

lemma p1_form1 {tok : List Char} (hlen : tok.length = 32)
    (halnum : ∀ c ∈ tok, isAlnumAscii c = true) :
    matchP1At (form1 tok) = some tok := by
  unfold matchP1At
  rw [show form1 tok = clientIdLit ++ (':' :: qc :: (tok ++ [qc])) from by
    unfold form1; simp]
  rw [matchLit_append]
  simp only [Option.some_bind]
  exact matchSepQuoted_run (by decide) hlen halnum

lemma p2_form2 {tok : List Char} (hlen : tok.length = 32)
    (halnum : ∀ c ∈ tok, isAlnumAscii c = true) :
    matchP2At (form2 tok) = some tok := by
  unfold matchP2At
  rw [show form2 tok = clientIdLit ++ ('=' :: qc :: (tok ++ [qc])) from by
    unfold form2; simp]
  rw [matchLit_append]
  simp only [Option.some_bind]
  exact matchSepQuoted_run (by decide) hlen halnum

lemma p3_form3 {tok : List Char} (hlen : tok.length = 32)
    (halnum : ∀ c ∈ tok, isAlnumAscii c = true) :
    matchP3At (form3 tok) = some tok := by
  unfold matchP3At
  rw [show form3 tok = jsonKeyLit ++ (':' :: qc :: (tok ++ [qc])) from by
    unfold form3 jsonKeyLit; simp]
  rw [matchLit_append]
  simp only [Option.some_bind]
  exact matchSepQuoted_run (by decide) hlen halnum

lemma p4_form4 {tok : List Char} (hlen : tok.length = 32)
    (halnum : ∀ c ∈ tok, isAlnumAscii c = true) :
    matchP4At (form4 tok) = some tok := by
  unfold matchP4At
  rw [show form4 tok = (clientIdLit ++ ['=']) ++ tok from by
    unfold form4; simp]
  rw [matchLit_append]
  simp only [Option.some_bind]
  have hta := takeAlnumExact_append tok [] halnum
  rw [List.append_nil] at hta
  rw [← hlen, hta]
  simp only [Option.map_some']

lemma not_mem_form2_colon {tok : List Char}
    (halnum : ∀ c ∈ tok, isAlnumAscii c = true) : ':' ∉ form2 tok := by
  intro h
  rw [show form2 tok = clientIdLit ++ ('=' :: qc :: (tok ++ [qc])) from by
    unfold form2; simp] at h
  rcases List.mem_append.mp h with h | h
  · exact absurd h (by decide)
  · rcases List.mem_cons.mp h with h | h
    · exact absurd h (by decide)
    · rcases List.mem_cons.mp h with h | h
      · exact absurd h (by decide)
      · rcases List.mem_append.mp h with h | h
        · exact not_alnum_not_mem halnum (by decide) h
        · rw [List.mem_singleton] at h
          exact absurd h (by decide)

lemma not_mem_form3_eq {tok : List Char}
    (halnum : ∀ c ∈ tok, isAlnumAscii c = true) : '=' ∉ form3 tok := by
  intro h
  rw [show form3 tok = qc :: (clientIdLit ++ (qc :: ':' :: qc :: (tok ++ [qc]))) from by
    unfold form3; simp] at h
  rcases List.mem_cons.mp h with h | h
  · exact absurd h (by decide)
  · rcases List.mem_append.mp h with h | h
    · exact absurd h (by decide)
    · rcases List.mem_cons.mp h with h | h
      · exact absurd h (by decide)
      · rcases List.mem_cons.mp h with h | h
        · exact absurd h (by decide)
        · rcases List.mem_cons.mp h with h | h
          · exact absurd h (by decide)
          · rcases List.mem_append.mp h with h | h
            · exact not_alnum_not_mem halnum (by decide) h
            · rw [List.mem_singleton] at h
              exact absurd h (by decide)

lemma not_mem_form4_colon {tok : List Char}
    (halnum : ∀ c ∈ tok, isAlnumAscii c = true) : ':' ∉ form4 tok := by
  unfold form4
  intro h
  rcases List.mem_append.mp h with h | h
  · exact absurd h (by decide)
  · rcases List.mem_cons.mp h with h | h
    · exact absurd h (by decide)
    · exact not_alnum_not_mem halnum (by decide) h

lemma not_mem_form4_quote {tok : List Char}
    (halnum : ∀ c ∈ tok, isAlnumAscii c = true) : qc ∉ form4 tok := by
  unfold form4
  intro h
  rcases List.mem_append.mp h with h | h
  · exact absurd h (by decide)
  · rcases List.mem_cons.mp h with h | h
    · exact absurd h (by decide)
    · exact not_alnum_not_mem halnum (by decide) h

/-- C6: for every 32-character alphanumeric token, the ordered pattern set
of the Credential Scraper extracts exactly that token from a document
embedding it in any of the four supported syntactic forms: JS
colon-assignment, `=` assignment, JSON key, and bare URL query parameter. -/
theorem c6_pattern_extraction (tok : List Char) (hlen : tok.length = 32)
    (halnum : ∀ c ∈ tok, isAlnumAscii c = true) :
    findTokenInText (form1 tok) = some tok ∧
    findTokenInText (form2 tok) = some tok ∧
    findTokenInText (form3 tok) = some tok ∧
    findTokenInText (form4 tok) = some tok := by
  refine ⟨?_, ?_, ?_, ?_⟩
  · unfold findTokenInText
    rw [searchWith_head (p1_form1 hlen halnum)]
  · unfold findTokenInText
    rw [searchWith_none_char ':' (fun s t h => (matchP1At_mem h).2)
      (not_mem_form2_colon halnum)]
    rw [searchWith_head (p2_form2 hlen halnum)]
  · unfold findTokenInText
    rw [p1_search_none_form3 halnum]
    rw [searchWith_none_char '=' (fun s t h => (matchP2At_mem h).1)
      (not_mem_form3_eq halnum)]
    rw [searchWith_head (p3_form3 hlen halnum)]
  · unfold findTokenInText
    rw [searchWith_none_char ':' (fun s t h => (matchP1At_mem h).2)
      (not_mem_form4_colon halnum)]
    rw [searchWith_none_char qc (fun s t h => (matchP2At_mem h).2)
      (not_mem_form4_quote halnum)]
    rw [searchWith_none_char qc (fun s t h => matchP3At_mem h)
      (not_mem_form4_quote halnum)]
    rw [searchWith_head (p4_form4 hlen halnum)]

/-- C6 witness: the theorem applied to the concrete 32-character token
`aaaaaaaaaaaaaaaaaaaaaaaaaaaaaaaa`. -/
theorem c6_witness :
    findTokenInText (form1 (List.replicate 32 'a'))
        = some (List.replicate 32 'a') ∧
      findTokenInText (form2 (List.replicate 32 'a'))
        = some (List.replicate 32 'a') ∧
      findTokenInText (form3 (List.replicate 32 'a'))
        = some (List.replicate 32 'a') ∧
      findTokenInText (form4 (List.replicate 32 'a'))
        = some (List.replicate 32 'a') :=
  c6_pattern_extraction (List.replicate 32 'a') (by decide) (by decide)

/-- C10 witness: a `user`-kind entity is rejected as unsupported. -/
theorem c10_witness :
    handle_download (fun _ => Except.ok true) ⟨"user", [], ⟨none, none, []⟩⟩
      = Except.error (unsupportedTypeErr "user") :=
  c10_unsupported_kind (fun _ => Except.ok true) ⟨"user", [], ⟨none, none, []⟩⟩
    (by decide) (by decide) (by decide)

/-- C9: destination-path collision resolution appends an incrementing counter
before the extension: with `"x.mp3"` on disk the chosen path is
`"x (2).mp3"`, and with both on disk it is `"x (3).mp3"`. -/
theorem c9_collision_resolution :
    resolvePath [str "x.mp3"] (str "x.mp3") = str "x (2).mp3" ∧
    resolvePath [str "x.mp3", str "x (2).mp3"] (str "x.mp3") = str "x (3).mp3" := by
  decide

end SCDL
